import Mathlib

/-!
Shallow embedding of the `groundcontrol` process supervisor
(`src/lib.rs`, `src/config.rs`).

The supervisor engine `run_processes` is generic over two external
capabilities (`StartProcess`, `ManageProcess`); their outcomes are
oracles supplied per process specification.  The trigger channel
(`tokio::sync::mpsc::unbounded_channel`, all messages are `()`) is
modelled by a pending-message count together with a live-sender count;
`recv` yields a message when the queue is non-empty, observes closure
when the queue is empty and no sender is alive, and otherwise blocks.

Sender-clone lifetimes of the external collaborators are not in
`src/` (they live in the `process` module, declared at `src/lib.rs`
line 24 but not present): per the spec, each live handle holds one
sender and releases it when the handle is consumed by `stop_process`.
Whether a given handle follows that discipline is an explicit oracle
(`dropsSenderOnStop`), and whether its child emits a (spurious)
notification while being stopped is another (`emitsOnStop`).

Strings in the configuration model are lists of characters, so every
definition evaluates structurally.
-/

/-- Errors generated when starting processes (`src/lib.rs` lines 36-54). -/
inductive StartProcessError
  | PreRunFailed
  | PreRunAborted (code : Int)
  | PreRunKilled
  | RunFailed
deriving DecidableEq, Repr

/-- Errors generated when stopping processes (`src/lib.rs` lines 70-88). -/
inductive StopProcessError
  | StopFailed
  | ProcessAborted (code : Int)
  | ProcessKilled
  | PostRunFailed
deriving DecidableEq, Repr

/-- One process specification, together with the oracle describing how its
external collaborators behave: the outcome of `start_process`, the outcome
of `stop_process` on the resulting handle, whether the child emits a
notification on the trigger channel while being stopped, and whether the
handle releases its cloned trigger sender when it is consumed by
`stop_process` (the spec's handle contract mandates this; it is an oracle
because the handle implementation is outside the engine). -/
structure ProcSpec where
  startResult : Option StartProcessError
  stopResult : Option StopProcessError
  emitsOnStop : Bool
  dropsSenderOnStop : Bool
deriving DecidableEq, Repr

/-- A process handle held in the engine's `running` vector: the index of the
spec it came from plus the behaviour of its `stop_process`. -/
structure Handle where
  idx : Nat
  stopResult : Option StopProcessError
  emitsOnStop : Bool
  dropsSenderOnStop : Bool
deriving DecidableEq, Repr

/-- The handle returned by a successful `start_process` of spec `s` at
position `i`. -/
def mkHandle (i : Nat) (s : ProcSpec) : Handle :=
  ⟨i, s.stopResult, s.emitsOnStop, s.dropsSenderOnStop⟩

/-- The trigger channel (`mpsc::unbounded_channel`, `src/lib.rs` line 112):
all messages are `()`, so the queue is a count; `senders` counts the live
`UnboundedSender` clones. -/
structure Channel where
  queue : Nat
  senders : Nat
deriving DecidableEq, Repr

/-- `send(())` on any live sender clone. -/
def Channel.send (c : Channel) : Channel :=
  { c with queue := c.queue + 1 }

/-- `k` sends in a row. -/
def Channel.sendN (c : Channel) (k : Nat) : Channel :=
  { c with queue := c.queue + k }

/-- `.clone()` of a sender. -/
def Channel.addSender (c : Channel) : Channel :=
  { c with senders := c.senders + 1 }

/-- Dropping one sender clone. -/
def Channel.dropSender (c : Channel) : Channel :=
  { c with senders := c.senders - 1 }

/-- What a (blocking) `recv().await` on the receiver observes. -/
inductive RecvOutcome
  | msg
  | closed
  | blocked
deriving DecidableEq, Repr

/-- `recv` semantics of `mpsc`: a queued message is delivered even after all
senders are gone; `None` (closure) is observed only when the queue is empty
and no sender is alive; otherwise the receive blocks awaiting a send. -/
def Channel.recvOutcome (c : Channel) : RecvOutcome :=
  if c.queue ≠ 0 then .msg
  else if c.senders = 0 then .closed
  else .blocked

/-- Observable engine events: the `start_process` call for spec `i`, and the
`stop_process` call on the handle of spec `i`. -/
inductive Event
  | start (i : Nat)
  | stop (i : Nat)
deriving DecidableEq, Repr

/-- The `while let Some(process) = running.pop()` stop loop shared by the
rollback path (`src/lib.rs` lines 127-131) and the teardown path (lines
179-189): stop each handle in LIFO order, log-and-discard its stop error.
While a child is being stopped it may emit one last notification on its
sender clone; the clone is released when the handle is consumed (if the
handle follows the spec's contract). -/
def stopHandles : List Handle → Channel → List Event × Channel
  | [], c => ([], c)
  | h :: rest, c =>
      let c1 := if h.emitsOnStop then c.send else c
      let c2 := if h.dropsSenderOnStop then c1.dropSender else c1
      let (tr, c3) := stopHandles rest c2
      (Event.stop h.idx :: tr, c3)

/-- Outcome of the startup loop (`src/lib.rs` lines 117-153): either all
starts succeeded (final `running` vector, most recently started first, and
the channel state), or a start failed and the rollback stops have run —
`aborted` carries the trace so far, the original error and the channel
state right after `drop(shutdown_sender)` (line 143), i.e. on entry to the
drain loop. -/
inductive StartupResult
  | ok (trace : List Event) (running : List Handle) (chan : Channel)
  | aborted (trace : List Event) (err : StartProcessError) (chan : Channel)
deriving DecidableEq, Repr

/-- The startup loop: for each spec in order, call
`start_process(shutdown_sender.clone())`; push the handle on success; on
the first failure stop everything started so far in LIFO order and release
the engine's own sender.  `i` is the position of the next spec; `running`
holds the already-started handles, most recent first. -/
def startup : List ProcSpec → Nat → List Handle → Channel → StartupResult
  | [], _, running, c => .ok [] running c
  | sp :: rest, i, running, c =>
      match sp.startResult with
      | none =>
          -- the clone is retained by the started process's handle
          match startup rest (i + 1) (mkHandle i sp :: running) c.addSender with
          | .ok tr fin cf => .ok (Event.start i :: tr) fin cf
          | .aborted tr e cf => .aborted (Event.start i :: tr) e cf
      | some e =>
          -- the clone moved into the failing start is released by the launcher
          let c0 := c.addSender.dropSender
          let (tr2, c2) := stopHandles running c0
          .aborted (Event.start i :: tr2) e c2.dropSender

/-- The rollback drain loop `while shutdown_receiver.recv().await.is_some()`
(`src/lib.rs` line 144), run with enough fuel to consume every queued
message.  No send can occur during the drain, so a blocked receive would
block forever: that (and fuel exhaustion, unreachable with fuel ≥ queue)
is `none`; `some` returns the channel observed closed. -/
def drainAux : Nat → Channel → Option Channel
  | 0, c =>
      match c.recvOutcome with
      | .closed => some c
      | _ => none
  | fuel + 1, c =>
      match c.recvOutcome with
      | .msg => drainAux fuel { c with queue := c.queue - 1 }
      | .closed => some c
      | .blocked => none

/-- The drain loop with its natural fuel (one step per queued message). -/
def drainClosed (c : Channel) : Option Channel :=
  drainAux c.queue c

/-- The state of the external shutdown input during the run: a value was
sent on it, it was closed without a value, or neither happened. -/
inductive ShutdownInput
  | value
  | closed
  | pending
deriving DecidableEq, Repr

/-- The shutdown bridge task (`src/lib.rs` lines 156-162): `shutdown.recv()`
completes both on a value and on closure, and in either case one `()` is
forwarded into the trigger channel. -/
def bridgeFires : ShutdownInput → Bool
  | .value => true
  | .closed => true
  | .pending => false

instance : DecidableEq (Except StartProcessError Unit) := fun a b =>
  match a, b with
  | .ok (), .ok () => isTrue rfl
  | .error e, .error f =>
      if h : e = f then isTrue (by rw [h])
      else isFalse (by intro hh; cases hh; exact h rfl)
  | .ok _, .error _ => isFalse (by intro h; cases h)
  | .error _, .ok _ => isFalse (by intro h; cases h)

/-- What `run_processes` produced when it returned: the event trace, the
`Result` value, the number of messages its steady-state receive consumed
from the trigger channel, and the number of notifications still queued
(unconsumed) at return. -/
structure RunOutcome where
  trace : List Event
  result : Except StartProcessError Unit
  steadyConsumed : Nat
  leftoverQueue : Nat
deriving Repr, DecidableEq

/-- Fate of a `run_processes` call: it returned, the steady-state
`expect` panicked (receiver closed with nothing queued), or a blocking
receive can never be fulfilled. -/
inductive RunStatus
  | returned (o : RunOutcome)
  | panicked
  | blocked
deriving Repr, DecidableEq

/-- The steady-state phase (`src/lib.rs` lines 155-193): spawn the bridge
with a cloned sender; if the external input fired (value or closure) the
bridge sends once and its clone is dropped as the task ends;
`childNotes` further notifications arrive from daemon children that
exited on their own.  Then block on the receiver for the first
notification (the `expect` at lines 169-172 panics if it observes
closure), tear every handle down in LIFO order, and return `Ok(())`. -/
def steady (inp : ShutdownInput) (childNotes : Nat) (running : List Handle)
    (c : Channel) (trace : List Event) : RunStatus :=
  let c1 := c.addSender
  let c2 := if bridgeFires inp then c1.send.dropSender else c1
  let c3 := c2.sendN childNotes
  match c3.recvOutcome with
  | .closed => .panicked
  | .blocked => .blocked
  | .msg =>
      let c4 := { c3 with queue := c3.queue - 1 }
      let (tr2, c5) := stopHandles running c4
      .returned ⟨trace ++ tr2, .ok (), 1, c5.queue⟩

/-- `run_processes` (`src/lib.rs` lines 100-194): create the trigger
channel (the engine holds its sender), run the startup loop, and either
enter steady state or drain and return the original start error. -/
def runProcesses (specs : List ProcSpec) (inp : ShutdownInput)
    (childNotes : Nat) : RunStatus :=
  let c0 : Channel := { queue := 0, senders := 1 }
  match startup specs 0 [] c0 with
  | .ok trace running c => steady inp childNotes running c trace
  | .aborted trace e c =>
      match drainClosed c with
      | some c4 => .returned ⟨trace, .error e, 0, c4.queue⟩
      | none => .blocked

/-- The public entry point `run` (`src/lib.rs` lines 29-33) as a function of
the engine outcome: `run_processes(...).with_context(|| "Ground Control did
not stop cleanly")`.  `anyhow::Context::with_context` passes `Ok` through
and wraps an `Err` in a new error whose top-level message is the context
string and whose source is the original error. -/
structure AnyhowError where
  context : String
  source : Option StartProcessError
deriving DecidableEq, Repr

/-- `run`, given the result of `run_processes`. -/
def run (engineResult : Except StartProcessError Unit) : Except AnyhowError Unit :=
  match engineResult with
  | .ok () => .ok ()
  | .error e => .error ⟨"Ground Control did not stop cleanly", some e⟩

/-!  Configuration parsing (`src/config.rs`).  Strings are modelled as
lists of characters. -/

/-- A command line: either a bare string or an array of strings
(`src/config.rs` lines 122-128). -/
inductive CommandLine
  | commandString (line : List Char)
  | commandVector (v : List (List Char))
deriving DecidableEq, Repr

/-- Rust's `str::split(' ')`: split at every single space character,
keeping empty tokens; it always yields at least one token (the empty
string yields one empty token). -/
def splitOnSpace : List Char → List (List Char)
  | [] => [[]]
  | ch :: rest =>
      match splitOnSpace rest with
      | [] => [[ch]]
      | t :: ts => if ch = ' ' then [] :: t :: ts else (ch :: t) :: ts

/-- `CommandLine::program_and_args` (`src/config.rs` lines 130-160).
Partiality models the two panics: for a bare string, the
`expect("Command line must not be empty")` on the first token (which in
fact can never fire, since `split` always yields a first token); for a
vector, the `v[0]` index that panics on an empty vector. -/
def CommandLine.programAndArgs : CommandLine → Option (List Char × List (List Char))
  | .commandString line =>
      match splitOnSpace line with
      | [] => none
      | program :: args => some (program, args)
  | .commandVector v =>
      match v with
      | [] => none
      | program :: args => some (program, args)

/-- The normalized command descriptor `CommandConfig`
(`src/config.rs` lines 72-87). -/
structure CommandConfig where
  user : Option (List Char)
  env_vars : List (List Char)
  program : List Char
  args : List (List Char)
deriving DecidableEq, Repr

/-- The three wire shapes of a command (`src/config.rs` lines 89-95 and
162-172): a simple command line, or a detailed object carrying `user`,
`env-vars` and a command line. -/
inductive CommandLineConfig
  | simple (c : CommandLine)
  | detailed (user : Option (List Char)) (env_vars : List (List Char)) (c : CommandLine)
deriving DecidableEq, Repr

/-- `From<CommandLineConfig> for CommandConfig` (`src/config.rs` lines
97-120): normalize any of the shapes to a `CommandConfig`; a simple
command line gets `user = None` and no environment variables. -/
def commandConfigFrom : CommandLineConfig → Option CommandConfig
  | .simple c =>
      (c.programAndArgs).map fun pa => ⟨none, [], pa.1, pa.2⟩
  | .detailed u ev c =>
      (c.programAndArgs).map fun pa => ⟨u, ev, pa.1, pa.2⟩

/-- `run_processes` returned `Ok(())`. -/
def RunStatus.returnedOk : RunStatus → Bool
  | .returned ⟨_, .ok _, _, _⟩ => true
  | _ => false

/-- A process spec with its `stop_process` outcome replaced. -/
def ProcSpec.withStop (r : Option StopProcessError) (s : ProcSpec) : ProcSpec :=
  { s with stopResult := r }

/-- A handle with its `stop_process` outcome replaced. -/
def Handle.withStop (r : Option StopProcessError) (h : Handle) : Handle :=
  { h with stopResult := r }

/-!  Lemmas about the engine model. -/

/-- The start events `start i, start (i+1), …` emitted by `n` consecutive
successful starts beginning at position `i`. -/
def startEvents (i : Nat) : Nat → List Event
  | 0 => []
  | n + 1 => Event.start i :: startEvents (i + 1) n

/-- The handles produced by starting the given specs at consecutive
positions beginning at `i`, in start order. -/
def mkHandles (i : Nat) : List ProcSpec → List Handle
  | [] => []
  | s :: rest => mkHandle i s :: mkHandles (i + 1) rest

theorem startEvents_eq_range' (i n : Nat) :
    startEvents i n = (List.range' i n).map Event.start := by
  induction n generalizing i with
  | zero => simp [startEvents]
  | succ n ih => simp [startEvents, List.range', ih]

theorem startEvents_eq_range (n : Nat) :
    startEvents 0 n = (List.range n).map Event.start := by
  rw [startEvents_eq_range', List.range_eq_range']

theorem mkHandles_map_idx (specs : List ProcSpec) (i : Nat) :
    (mkHandles i specs).map Handle.idx = List.range' i specs.length := by
  induction specs generalizing i with
  | nil => simp [mkHandles]
  | cons s rest ih => simp [mkHandles, List.range', mkHandle, ih]

theorem mkHandles_length (specs : List ProcSpec) (i : Nat) :
    (mkHandles i specs).length = specs.length := by
  induction specs generalizing i with
  | nil => rfl
  | cons s rest ih => simp [mkHandles, ih]

theorem mkHandles_countP_emits (specs : List ProcSpec) (i : Nat) :
    (mkHandles i specs).countP (·.emitsOnStop) = specs.countP (·.emitsOnStop) := by
  induction specs generalizing i with
  | nil => rfl
  | cons s rest ih => simp [mkHandles, List.countP_cons, mkHandle, ih]

theorem mkHandles_countP_drops (specs : List ProcSpec) (i : Nat) :
    (mkHandles i specs).countP (·.dropsSenderOnStop) =
      specs.countP (·.dropsSenderOnStop) := by
  induction specs generalizing i with
  | nil => rfl
  | cons s rest ih => simp [mkHandles, List.countP_cons, mkHandle, ih]

theorem countP_reverse (l : List α) (p : α → Bool) :
    l.reverse.countP p = l.countP p := by
  induction l with
  | nil => rfl
  | cons a l ih => simp [List.countP_append, List.countP_cons, ih, Nat.add_comm]

/-- Closed form of the LIFO stop loop: it emits one `stop` event per handle
in list order, enqueues one notification per emitting child, and releases
one sender per contract-abiding handle.  Stop errors influence nothing. -/
theorem stopHandles_eq (hs : List Handle) : ∀ c : Channel,
    stopHandles hs c =
      (hs.map fun h => Event.stop h.idx,
       { queue := c.queue + hs.countP (·.emitsOnStop),
         senders := c.senders - hs.countP (·.dropsSenderOnStop) }) := by
  induction hs with
  | nil => intro c; simp [stopHandles]
  | cons h hs ih =>
      intro c
      simp only [stopHandles, ih]
      by_cases he : h.emitsOnStop <;> by_cases hd : h.dropsSenderOnStop <;>
        simp [he, hd, Channel.send, Channel.dropSender, List.countP_cons,
          Channel.mk.injEq] <;> omega

/-- Closed form of the startup loop when every start succeeds: one `start`
event per spec in order, one handle pushed per spec (most recent first),
and one live sender clone added per started handle. -/
theorem startup_ok (specs : List ProcSpec) :
    ∀ (i : Nat) (running : List Handle) (c : Channel),
    (∀ s ∈ specs, s.startResult = none) →
    startup specs i running c =
      .ok (startEvents i specs.length)
          ((mkHandles i specs).reverse ++ running)
          { queue := c.queue, senders := c.senders + specs.length } := by
  induction specs with
  | nil => intro i running c _; simp [startup, startEvents, mkHandles]
  | cons s rest ih =>
      intro i running c hall
      have hs : s.startResult = none := hall s (by simp)
      rw [startup, hs]
      rw [ih (i + 1) (mkHandle i s :: running) c.addSender
        (fun x hx => hall x (by simp [hx]))]
      simp [startEvents, mkHandles, Channel.addSender, Channel.mk.injEq]
      omega

/-- Closed form of the startup loop when the starts of `pre` succeed and
the next start fails with `e`: `start` events for `pre` and the failing
spec, rollback `stop` events for everything started (LIFO), and the
channel on entry to the drain loop — the queue holds one notification per
emitting rolled-back child, and the live senders are the engine's plus the
started handles' minus the releases, minus the engine's own explicit
`drop(shutdown_sender)`. -/
theorem startup_fail (pre : List ProcSpec) :
    ∀ (sp : ProcSpec) (rest : List ProcSpec) (e : StartProcessError)
      (i : Nat) (running : List Handle) (c : Channel),
    (∀ s ∈ pre, s.startResult = none) →
    sp.startResult = some e →
    startup (pre ++ sp :: rest) i running c =
      .aborted
        (startEvents i (pre.length + 1) ++
          (((mkHandles i pre).reverse ++ running).map fun h => Event.stop h.idx))
        e
        { queue := c.queue +
            ((mkHandles i pre).reverse ++ running).countP (·.emitsOnStop),
          senders := (c.senders + pre.length -
            ((mkHandles i pre).reverse ++ running).countP (·.dropsSenderOnStop)) - 1 } := by
  induction pre with
  | nil =>
      intro sp rest e i running c _ hfail
      rw [List.nil_append, startup, hfail]
      simp [stopHandles_eq, Channel.addSender, Channel.dropSender,
        startEvents, mkHandles, Channel.mk.injEq]
  | cons s pre ih =>
      intro sp rest e i running c hall hfail
      have hs : s.startResult = none := hall s (by simp)
      rw [List.cons_append, startup, hs]
      rw [ih sp rest e (i + 1) (mkHandle i s :: running) c.addSender
        (fun x hx => hall x (by simp [hx])) hfail]
      simp [startEvents, mkHandles, Channel.addSender, Channel.mk.injEq,
        List.reverse_cons, List.append_assoc]
      omega

/-- Closed form of the steady state when some trigger arrives (the bridge
fires, or at least one child-exit notification is pending): the first
notification is consumed — exactly one — every handle is stopped in LIFO
order, and the run returns `Ok(())` leaving every further notification
unconsumed. -/
theorem steady_eq (inp : ShutdownInput) (childNotes : Nat)
    (htrig : bridgeFires inp = true ∨ childNotes ≠ 0)
    (running : List Handle) (c : Channel) (trace : List Event) :
    steady inp childNotes running c trace =
      .returned ⟨trace ++ running.map fun h => Event.stop h.idx,
                 .ok (), 1,
                 (c.queue + cond (bridgeFires inp) 1 0 + childNotes - 1) +
                   running.countP (·.emitsOnStop)⟩ := by
  unfold steady
  cases hb : bridgeFires inp with
  | true =>
      have hne : c.queue + 1 + childNotes ≠ 0 := by omega
      simp [Channel.addSender, Channel.send, Channel.dropSender, Channel.sendN,
        Channel.recvOutcome, hne, stopHandles_eq, RunOutcome.mk.injEq]
  | false =>
      have hcn : childNotes ≠ 0 := by
        rcases htrig with h | h
        · rw [hb] at h; cases h
        · exact h
      have hne : c.queue + childNotes ≠ 0 := by omega
      simp [Channel.addSender, Channel.send, Channel.dropSender, Channel.sendN,
        Channel.recvOutcome, hne, stopHandles_eq, RunOutcome.mk.injEq]

/-- The drain loop terminates once no sender is alive, consuming every
queued notification and observing closure. -/
theorem drainAux_senders_zero : ∀ fuel q : Nat, q ≤ fuel →
    drainAux fuel ⟨q, 0⟩ = some ⟨0, 0⟩ := by
  intro fuel
  induction fuel with
  | zero =>
      intro q hq
      have : q = 0 := Nat.le_zero.mp hq
      subst this
      simp [drainAux, Channel.recvOutcome]
  | succ fuel ih =>
      intro q hq
      cases q with
      | zero => simp [drainAux, Channel.recvOutcome]
      | succ q =>
          have : (Channel.mk (q + 1) 0).recvOutcome = .msg := by
            simp [Channel.recvOutcome]
          simp [drainAux, this]
          exact ih q (by omega)

theorem drainClosed_senders_zero (q : Nat) :
    drainClosed ⟨q, 0⟩ = some ⟨0, 0⟩ :=
  drainAux_senders_zero q q (Nat.le_refl q)

/-- Stop outcomes are log-and-discard: replacing every handle's stop
outcome changes nothing in the stop loop. -/
theorem stopHandles_withStop (hs : List Handle) (r : Option StopProcessError) :
    ∀ c : Channel, stopHandles (hs.map (Handle.withStop r)) c = stopHandles hs c := by
  induction hs with
  | nil => intro c; rfl
  | cons h hs ih => intro c; simp [stopHandles, Handle.withStop, ih]

/-- Replacing every spec's stop outcome leaves the startup loop's trace,
error and channel unchanged (only the recorded handles differ, in their
inert `stopResult` field). -/
theorem startup_withStop (specs : List ProcSpec) (r : Option StopProcessError) :
    ∀ (i : Nat) (running : List Handle) (c : Channel),
    startup (specs.map (ProcSpec.withStop r)) i (running.map (Handle.withStop r)) c =
      match startup specs i running c with
      | .ok tr fin cf => .ok tr (fin.map (Handle.withStop r)) cf
      | .aborted tr e cf => .aborted tr e cf := by
  induction specs with
  | nil => intro i running c; simp [startup]
  | cons s rest ih =>
      intro i running c
      have hsr : (ProcSpec.withStop r s).startResult = s.startResult := rfl
      cases hs : s.startResult with
      | none =>
          have hcons :
              Handle.withStop r (mkHandle i (ProcSpec.withStop r s)) :: running.map (Handle.withStop r) =
                (mkHandle i s :: running).map (Handle.withStop r) := rfl
          simp only [List.map_cons, startup, hsr, hs]
          rw [show mkHandle i (ProcSpec.withStop r s) = Handle.withStop r (mkHandle i s) from rfl]
          rw [show (Handle.withStop r (mkHandle i s) :: running.map (Handle.withStop r)) =
            (mkHandle i s :: running).map (Handle.withStop r) from rfl]
          rw [ih (i + 1) (mkHandle i s :: running) c.addSender]
          cases startup rest (i + 1) (mkHandle i s :: running) c.addSender <;> simp
      | some e =>
          simp only [List.map_cons, startup, hsr, hs]
          rw [stopHandles_withStop]

/-- Replacing every handle's stop outcome leaves the steady state
unchanged. -/
theorem steady_withStop (inp : ShutdownInput) (childNotes : Nat)
    (running : List Handle) (r : Option StopProcessError) (c : Channel)
    (trace : List Event) :
    steady inp childNotes (running.map (Handle.withStop r)) c trace =
      steady inp childNotes running c trace := by
  unfold steady
  cases ((if bridgeFires inp then (c.addSender.send).dropSender else c.addSender).sendN
      childNotes).recvOutcome <;>
    simp [stopHandles_withStop]

/-- Replacing every spec's stop outcome leaves the whole run unchanged. -/
theorem runProcesses_withStop (specs : List ProcSpec) (r : Option StopProcessError)
    (inp : ShutdownInput) (childNotes : Nat) :
    runProcesses (specs.map (ProcSpec.withStop r)) inp childNotes =
      runProcesses specs inp childNotes := by
  simp only [runProcesses]
  have h := startup_withStop specs r 0 [] ⟨0, 1⟩
  simp only [List.map_nil] at h
  rw [h]
  cases startup specs 0 [] ⟨0, 1⟩ with
  | ok tr fin cf => simpa using steady_withStop inp childNotes fin r cf tr
  | aborted tr e cf => rfl

theorem mkHandles_reverse_stops (specs : List ProcSpec) :
    ((mkHandles 0 specs).reverse).map (fun h => Event.stop h.idx) =
      (List.range specs.length).reverse.map Event.stop := by
  have hc : (fun h : Handle => Event.stop h.idx) = Event.stop ∘ Handle.idx := rfl
  rw [List.map_reverse, hc, ← List.map_map, mkHandles_map_idx, ← List.range_eq_range',
    ← List.map_reverse]

theorem mkHandles_reverse_countE (specs : List ProcSpec) :
    ((mkHandles 0 specs).reverse).countP (·.emitsOnStop) =
      specs.countP (·.emitsOnStop) := by
  rw [countP_reverse, mkHandles_countP_emits]

/-- Closed form of a whole successful run: starts in order, one consumed
trigger, stops in reverse order, `Ok(())`, and every notification beyond
the first left in the queue. -/
theorem runProcesses_ok_eq (specs : List ProcSpec) (inp : ShutdownInput)
    (childNotes : Nat)
    (hstart : ∀ s ∈ specs, s.startResult = none)
    (htrig : bridgeFires inp = true ∨ childNotes ≠ 0) :
    runProcesses specs inp childNotes =
      .returned ⟨(List.range specs.length).map Event.start ++
                   (List.range specs.length).reverse.map Event.stop,
                 .ok (), 1,
                 cond (bridgeFires inp) 1 0 + childNotes - 1 +
                   specs.countP (·.emitsOnStop)⟩ := by
  simp only [runProcesses]
  rw [startup_ok specs 0 [] ⟨0, 1⟩ hstart]
  simp only [steady_eq inp childNotes htrig]
  simp only [List.append_nil]
  rw [startEvents_eq_range, mkHandles_reverse_stops, mkHandles_reverse_countE]
  simp

/-- Closed form of a run whose startup aborts at the first failing spec,
up to the entrance of the drain loop: note the drain is entered with zero
live senders — every rolled-back handle released its clone and the engine
explicitly dropped its own — and one queued notification per emitting
rolled-back child. -/
theorem startup_fail_top (pre rest : List ProcSpec) (sp : ProcSpec)
    (e : StartProcessError)
    (hpre : ∀ s ∈ pre, s.startResult = none)
    (hfail : sp.startResult = some e)
    (hdrop : ∀ s ∈ pre, s.dropsSenderOnStop = true) :
    startup (pre ++ sp :: rest) 0 [] ⟨0, 1⟩ =
      .aborted ((List.range (pre.length + 1)).map Event.start ++
                  (List.range pre.length).reverse.map Event.stop) e
        ⟨pre.countP (·.emitsOnStop), 0⟩ := by
  rw [startup_fail pre sp rest e 0 [] ⟨0, 1⟩ hpre hfail]
  have hD : ((mkHandles 0 pre).reverse).countP (·.dropsSenderOnStop) = pre.length := by
    rw [countP_reverse, mkHandles_countP_drops]
    exact List.countP_eq_length.mpr fun s hs => by rw [hdrop s hs]
  simp only [List.append_nil]
  rw [startEvents_eq_range, mkHandles_reverse_stops, mkHandles_reverse_countE, hD]
  simp [Channel.mk.injEq]

/-- A run whose startup aborted with the drain entered on a sender-free
channel returns the original error with an empty queue. -/
theorem runProcesses_aborted_drained (specs : List ProcSpec) (inp : ShutdownInput)
    (childNotes : Nat) (tr : List Event) (e : StartProcessError) (q : Nat)
    (h : startup specs 0 [] ⟨0, 1⟩ = .aborted tr e ⟨q, 0⟩) :
    runProcesses specs inp childNotes = .returned ⟨tr, .error e, 0, 0⟩ := by
  simp only [runProcesses, h, drainClosed_senders_zero]

/-- A run whose startup aborted never returns `Ok(())`. -/
theorem returnedOk_aborted (specs : List ProcSpec) (inp : ShutdownInput)
    (childNotes : Nat) (tr : List Event) (e : StartProcessError) (c : Channel)
    (h : startup specs 0 [] ⟨0, 1⟩ = .aborted tr e c) :
    (runProcesses specs inp childNotes).returnedOk = false := by
  simp only [runProcesses, h]
  cases drainClosed c <;> simp [RunStatus.returnedOk]

theorem recvOutcome_ne_closed (c : Channel) (h : c.senders ≠ 0 ∨ c.queue ≠ 0) :
    c.recvOutcome ≠ RecvOutcome.closed := by
  unfold Channel.recvOutcome
  rcases h with h | h
  · by_cases hq : c.queue ≠ 0 <;> simp [hq, h]
  · simp [h]

/-- The steady-state receive never observes a closed channel: the bridge
clone keeps the sender count positive until the bridge sends, and once it
has sent the queue is non-empty. -/
theorem steady_ne_panicked (inp : ShutdownInput) (k : Nat) (running : List Handle)
    (c : Channel) (trace : List Event) :
    steady inp k running c trace ≠ RunStatus.panicked := by
  unfold steady
  have h : (((if bridgeFires inp then ((c.addSender).send).dropSender
      else c.addSender)).sendN k).recvOutcome ≠ RecvOutcome.closed := by
    apply recvOutcome_ne_closed
    cases hb : bridgeFires inp
    · left
      simp [hb, Channel.addSender, Channel.sendN]
    · right
      simp [hb, Channel.addSender, Channel.send, Channel.dropSender, Channel.sendN]
  cases hrc : (((if bridgeFires inp then ((c.addSender).send).dropSender
      else c.addSender)).sendN k).recvOutcome with
  | closed => exact absurd hrc h
  | msg => simp [hrc]
  | blocked => simp [hrc]

/-- Any spec list that is not all-success splits at its first failing
start. -/
theorem exists_first_failure (specs : List ProcSpec)
    (h : ¬ ∀ s ∈ specs, s.startResult = none) :
    ∃ pre sp rest e, specs = pre ++ sp :: rest ∧
      (∀ s ∈ pre, s.startResult = none) ∧ sp.startResult = some e := by
  induction specs with
  | nil => exact absurd (by simp) h
  | cons s rest ih =>
      cases hs : s.startResult with
      | some e => exact ⟨[], s, rest, e, rfl, by simp, hs⟩
      | none =>
          have hrest : ¬ ∀ x ∈ rest, x.startResult = none := by
            intro hr
            apply h
            intro x hx
            rcases List.mem_cons.mp hx with h1 | h2
            · rw [h1]; exact hs
            · exact hr x h2
          obtain ⟨pre, sp, rest2, e, heq, hpre, hsp⟩ := ih hrest
          refine ⟨s :: pre, sp, rest2, e, by rw [heq, List.cons_append], ?_, hsp⟩
          intro x hx
          rcases List.mem_cons.mp hx with h1 | h2
          · rw [h1]; exact hs
          · exact hpre x h2

/-!  The claims. -/

/-- C1: for every spec list of length `n` in which every `start_process`
call succeeds, once a shutdown trigger arrives (external — the bridge
fires — or child-exit — a pending notification), the engine calls
`stop_process` exactly `n` times, exactly once per started handle, in the
strict reverse of the start order (the trace is `start 0 … start (n-1)`
followed by `stop (n-1) … stop 0`), and `run_processes` returns
`Ok(())`. -/
theorem all_success_stops_in_reverse_order
    (specs : List ProcSpec) (inp : ShutdownInput) (childNotes : Nat)
    (hstart : ∀ s ∈ specs, s.startResult = none)
    (htrig : bridgeFires inp = true ∨ childNotes ≠ 0) :
    runProcesses specs inp childNotes =
      .returned ⟨(List.range specs.length).map Event.start ++
                   (List.range specs.length).reverse.map Event.stop,
                 .ok (), 1,
                 cond (bridgeFires inp) 1 0 + childNotes - 1 +
                   specs.countP (·.emitsOnStop)⟩ :=
  runProcesses_ok_eq specs inp childNotes hstart htrig

theorem all_success_stops_in_reverse_order_witness :
    runProcesses [⟨none, some .StopFailed, true, true⟩, ⟨none, none, false, true⟩]
        .value 0 =
      .returned ⟨[Event.start 0, Event.start 1, Event.stop 1, Event.stop 0],
                 .ok (), 1, 1⟩ :=
  all_success_stops_in_reverse_order
    [⟨none, some .StopFailed, true, true⟩, ⟨none, none, false, true⟩]
    .value 0 (by decide) (by decide)

/-- C2: for every spec list in which the start of spec `k` (0-indexed,
`k = pre.length`, all earlier starts succeeding) fails with `e`,
`start_process` is called exactly for specs `0…k`, `stop_process` exactly
for specs `0…k-1` in reverse start order, no start is made for any spec
after `k`, and `run_processes` returns that first error unchanged; the
rolled-back handles' stop outcomes (their `stopResult` fields, arbitrary
here) never replace the returned error. -/
theorem mid_failure_rolls_back_and_returns_first_error
    (pre rest : List ProcSpec) (sp : ProcSpec) (e : StartProcessError)
    (inp : ShutdownInput) (childNotes : Nat)
    (hpre : ∀ s ∈ pre, s.startResult = none)
    (hfail : sp.startResult = some e)
    (hdrop : ∀ s ∈ pre, s.dropsSenderOnStop = true) :
    runProcesses (pre ++ sp :: rest) inp childNotes =
      .returned ⟨(List.range (pre.length + 1)).map Event.start ++
                   (List.range pre.length).reverse.map Event.stop,
                 .error e, 0, 0⟩ :=
  runProcesses_aborted_drained _ inp childNotes _ e _
    (startup_fail_top pre rest sp e hpre hfail hdrop)

theorem mid_failure_rolls_back_and_returns_first_error_witness :
    runProcesses [⟨none, some .ProcessKilled, true, true⟩,
                  ⟨some .PreRunFailed, none, false, true⟩,
                  ⟨none, none, false, true⟩] .pending 0 =
      .returned ⟨[Event.start 0, Event.start 1, Event.stop 0],
                 .error .PreRunFailed, 0, 0⟩ :=
  mid_failure_rolls_back_and_returns_first_error
    [⟨none, some .ProcessKilled, true, true⟩]
    [⟨none, none, false, true⟩]
    ⟨some .PreRunFailed, none, false, true⟩
    .PreRunFailed .pending 0 (by decide) rfl (by decide)

/-- C3: `run_processes` returns `Ok(())` exactly when every attempted
`start_process` call succeeded (given that some shutdown trigger arrives,
and that rolled-back handles release their senders so the run returns at
all in the failure case — here the failure case needs no such hypothesis
because a blocked run did not return success either); and replacing every
spec's `stop_process` outcome leaves the entire run unchanged. -/
theorem success_iff_all_starts_succeed
    (specs : List ProcSpec) (inp : ShutdownInput) (childNotes : Nat)
    (htrig : bridgeFires inp = true ∨ childNotes ≠ 0) :
    ((runProcesses specs inp childNotes).returnedOk = true ↔
       ∀ s ∈ specs, s.startResult = none) ∧
    ∀ r : Option StopProcessError,
      runProcesses (specs.map (ProcSpec.withStop r)) inp childNotes =
        runProcesses specs inp childNotes := by
  refine ⟨⟨?_, ?_⟩, fun r => runProcesses_withStop specs r inp childNotes⟩
  · intro h
    by_contra hall
    obtain ⟨pre, sp, rest, e, heq, hpre, hsp⟩ := exists_first_failure specs hall
    subst heq
    rw [returnedOk_aborted (pre ++ sp :: rest) inp childNotes _ e _
      (startup_fail pre sp rest e 0 [] ⟨0, 1⟩ hpre hsp)] at h
    exact Bool.noConfusion h
  · intro hall
    rw [runProcesses_ok_eq specs inp childNotes hall htrig]
    rfl

theorem success_iff_all_starts_succeed_witness :
    (runProcesses [⟨none, some .StopFailed, false, true⟩] .closed 0).returnedOk =
      true :=
  (success_iff_all_starts_succeed [⟨none, some .StopFailed, false, true⟩]
    .closed 0 (Or.inl rfl)).1.mpr (by decide)

/-- C4: closing the external shutdown input without sending a value yields
exactly the same run — same teardown trace, same result — as sending a
single value on it; the shutdown bridge forwards one notification into the
trigger channel in either case. -/
theorem closed_input_equals_sent_value
    (specs : List ProcSpec) (childNotes : Nat) :
    runProcesses specs ShutdownInput.closed childNotes =
      runProcesses specs ShutdownInput.value childNotes ∧
    bridgeFires .closed = true ∧ bridgeFires .value = true := by
  refine ⟨?_, rfl, rfl⟩
  simp only [runProcesses]
  cases hst : startup specs 0 [] ⟨0, 1⟩ with
  | ok tr fin cf => simp [steady, bridgeFires]
  | aborted tr e cf => rfl

/-- C5: in the steady state the engine reads exactly once from the trigger
channel (`steadyConsumed = 1`): of all notifications that arrived (the
bridge's, if it fired, plus `k` child-exit notifications, plus one per
child emitting while being torn down), all but the one consumed are still
queued when the run returns, and the trace and result do not depend on how
many extra notifications arrived. -/
theorem first_trigger_wins
    (specs : List ProcSpec) (inp : ShutdownInput) (k k2 : Nat)
    (hstart : ∀ s ∈ specs, s.startResult = none)
    (htrig : bridgeFires inp = true ∨ k ≠ 0)
    (htrig2 : bridgeFires inp = true ∨ k2 ≠ 0) :
    ∀ o o2 : RunOutcome,
      runProcesses specs inp k = .returned o →
      runProcesses specs inp k2 = .returned o2 →
      o.steadyConsumed = 1 ∧
      o.leftoverQueue + 1 =
        cond (bridgeFires inp) 1 0 + k + specs.countP (·.emitsOnStop) ∧
      o.trace = o2.trace ∧ o.result = o2.result := by
  intro o o2 h1 h2
  rw [runProcesses_ok_eq specs inp k hstart htrig] at h1
  rw [runProcesses_ok_eq specs inp k2 hstart htrig2] at h2
  cases h1
  cases h2
  refine ⟨rfl, ?_, rfl, rfl⟩
  rcases htrig with h | h
  · rw [h]; simp; omega
  · cases hb : bridgeFires inp <;> simp <;> omega

theorem first_trigger_wins_witness :
    (1 : Nat) = 1 ∧ (2 : Nat) + 1 = 1 + 2 + 0 ∧
      ([Event.start 0, Event.stop 0] : List Event) = [Event.start 0, Event.stop 0] ∧
      (Except.ok () : Except StartProcessError Unit) = .ok () :=
  first_trigger_wins [⟨none, none, false, true⟩] .value 2 7 (by decide)
    (by decide) (by decide)
    ⟨[Event.start 0, Event.stop 0], .ok (), 1, 2⟩
    ⟨[Event.start 0, Event.stop 0], .ok (), 1, 7⟩
    (by decide) (by decide)

/-- C6: the `expect` on the steady-state receive is unreachable: whenever
`run_processes` reaches that receive, the engine's own sender (and, until
it has sent, the bridge's) is still alive, so the receive can never
observe a closed, empty channel — for every spec list, including the
empty one, every external-input behaviour and any number of child-exit
notifications. -/
theorem steady_receive_never_sees_closed_channel
    (specs : List ProcSpec) (inp : ShutdownInput) (childNotes : Nat) :
    runProcesses specs inp childNotes ≠ RunStatus.panicked := by
  simp only [runProcesses]
  cases hst : startup specs 0 [] ⟨0, 1⟩ with
  | ok tr fin cf => exact steady_ne_panicked inp childNotes fin cf tr
  | aborted tr e cf => cases hdc : drainClosed cf <;> simp [hdc]

/-- C7: in the rollback path the engine's own trigger sender is dropped
before the drain loop is entered — the channel handed to the drain has
zero live senders (first conjunct), given that every started handle
released its sender clone when stopped — so the drain terminates by
observing closure after consuming every queued notification (second
conjunct), and only then is the original start error returned (third
conjunct). -/
theorem rollback_drain_terminates_then_returns
    (pre rest : List ProcSpec) (sp : ProcSpec) (e : StartProcessError)
    (inp : ShutdownInput) (childNotes : Nat)
    (hpre : ∀ s ∈ pre, s.startResult = none)
    (hfail : sp.startResult = some e)
    (hdrop : ∀ s ∈ pre, s.dropsSenderOnStop = true) :
    startup (pre ++ sp :: rest) 0 [] ⟨0, 1⟩ =
      .aborted ((List.range (pre.length + 1)).map Event.start ++
                  (List.range pre.length).reverse.map Event.stop) e
        ⟨pre.countP (·.emitsOnStop), 0⟩ ∧
    drainClosed ⟨pre.countP (·.emitsOnStop), 0⟩ = some ⟨0, 0⟩ ∧
    runProcesses (pre ++ sp :: rest) inp childNotes =
      .returned ⟨(List.range (pre.length + 1)).map Event.start ++
                   (List.range pre.length).reverse.map Event.stop,
                 .error e, 0, 0⟩ := by
  refine ⟨startup_fail_top pre rest sp e hpre hfail hdrop,
    drainClosed_senders_zero _, ?_⟩
  exact runProcesses_aborted_drained _ inp childNotes _ e _
    (startup_fail_top pre rest sp e hpre hfail hdrop)

theorem rollback_drain_terminates_then_returns_witness :
    startup [⟨none, none, true, true⟩, ⟨some .RunFailed, none, false, true⟩] 0 []
        ⟨0, 1⟩ =
      .aborted [Event.start 0, Event.start 1, Event.stop 0] .RunFailed ⟨1, 0⟩ ∧
    drainClosed ⟨1, 0⟩ = some ⟨0, 0⟩ ∧
    runProcesses [⟨none, none, true, true⟩, ⟨some .RunFailed, none, false, true⟩]
        .pending 0 =
      .returned ⟨[Event.start 0, Event.start 1, Event.stop 0], .error .RunFailed,
                 0, 0⟩ :=
  rollback_drain_terminates_then_returns
    [⟨none, none, true, true⟩] [] ⟨some .RunFailed, none, false, true⟩
    .RunFailed .pending 0 (by decide) rfl (by decide)

theorem splitOnSpace_ne_nil (l : List Char) : splitOnSpace l ≠ [] := by
  cases l with
  | nil => simp [splitOnSpace]
  | cons ch rest =>
      unfold splitOnSpace
      cases h : splitOnSpace rest with
      | nil => simp
      | cons t ts => by_cases hc : ch = ' ' <;> simp [hc]

/-- C8: a command given as a bare string is split on single space
characters, the first token becoming the program and the remaining tokens
the args, with `user = None` and no environment variables; a command given
as an array of strings yields the first element as program and the rest
as args, likewise with `user = None` and no environment variables. -/
theorem simple_command_normalization :
    (∀ line : List Char,
       commandConfigFrom (.simple (.commandString line)) =
         some ⟨none, [], (splitOnSpace line).headI, (splitOnSpace line).tail⟩) ∧
    (∀ (p : List Char) (args : List (List Char)),
       commandConfigFrom (.simple (.commandVector (p :: args))) =
         some ⟨none, [], p, args⟩) := by
  constructor
  · intro line
    simp only [commandConfigFrom, CommandLine.programAndArgs]
    cases h : splitOnSpace line with
    | nil => exact absurd h (splitOnSpace_ne_nil line)
    | cons p args => simp
  · intro p args
    rfl

/-- C9: the spec's invariant that every produced command descriptor has a
non-empty `program` is violated by the code.  The empty bare command
string is accepted — `split(' ')` on the empty string yields one empty
token, so the `expect("Command line must not be empty")` never fires —
and produces a descriptor whose `program` is the empty string.  (The
empty command array, by contrast, panics on the `v[0]` index rather than
producing a descriptor.) -/
theorem empty_command_string_produces_empty_program :
    commandConfigFrom (.simple (.commandString [])) =
      some ⟨none, [], [], []⟩ ∧
    commandConfigFrom (.simple (.commandVector [])) = none := by
  constructor <;> rfl

/-- C10: the public `run` returns `Ok(())` exactly when the engine's
`run_processes` returned `Ok(())`; on engine failure the start error is
not returned as the top-level error but wrapped by `with_context` in an
outer error whose message is "Ground Control did not stop cleanly" and
whose source is the original start error. -/
theorem run_wraps_engine_result :
    (∀ r : Except StartProcessError Unit, run r = .ok () ↔ r = .ok ()) ∧
    (∀ e : StartProcessError,
       run (.error e) =
         .error ⟨"Ground Control did not stop cleanly", some e⟩) := by
  constructor
  · intro r
    cases r with
    | ok u => cases u; simp [run]
    | error e => simp [run]
  · intro e
    rfl
